import Mathlib

/-!
# Verification of the path-conflict-detector pipeline

Shallow embedding of the conflict-detection core of the repository
(path-list parsing, symlink resolution, conflict grouping, categorization
and severity assessment), with theorems checking the specification's
claims against the embedded code.

Paths (`std::path::PathBuf`) are modelled as `String`; `Vec<T>` as
`List T`; `Option<T>` as `Option T`; `HashSet` cardinalities as
`List.dedup` lengths.  Rust's `usize`/`u32` arithmetic never overflows at
the uses embedded here except where noted (`parse_u32` keeps the explicit
`2^32` bound of `u32::from_str`).
-/

/-! ## Data model (src/output/types.rs) -/

structure PlatformInfo where
  os : String
  arch : String
  is_wsl : Bool
  wsl_version : Option String
  wsl_distro : Option String
deriving DecidableEq

inductive ManagerType where
  | VersionManager
  | PackageManager
  | SystemInstall
  | ManualInstall
  | Unknown
deriving DecidableEq

structure VersionInfo where
  raw : String
  parsed : Option String
  extraction_method : String
deriving DecidableEq

structure ManagerInfo where
  manager_type : ManagerType
  name : String
  description : String
deriving DecidableEq

/-- `ExecutableInfo` from src/output/types.rs.  `size : u64` and
`modified : i64` are carried but never computed with. -/
structure ExecutableInfo where
  name : String
  full_path : String
  size : Nat
  modified : Int
  is_symlink : Bool
  symlink_target : Option String
  resolved_path : String
  version : Option VersionInfo
  manager : Option ManagerInfo
  file_hash : Option String
  path_order : Nat
deriving DecidableEq

structure PathEntry where
  path : String
  order : Nat
  exists_dir : Bool
  is_accessible : Bool
  executables : List ExecutableInfo
deriving DecidableEq

inductive ConflictCategory where
  | WslVsWindows
  | VersionManagerVsSystem
  | MultipleVersionManagers
  | PackageManagerVsSystem
  | DuplicateVersions
  | ShadowedBinary
  | Other
deriving DecidableEq

/-- `Severity` derives `Ord` in Rust with declaration order
Info < Low < Medium < High < Critical. -/
inductive Severity where
  | Info
  | Low
  | Medium
  | High
  | Critical
deriving DecidableEq

/-- Rank realising the derived `Ord` on `Severity` (declaration order). -/
def Severity.rank : Severity → Nat
  | .Info => 0
  | .Low => 1
  | .Medium => 2
  | .High => 3
  | .Critical => 4

structure Conflict where
  binary_name : String
  instances : List ExecutableInfo
  active_instance : ExecutableInfo
  category : ConflictCategory
  severity : Severity
  description : String
  recommendation : Option String
deriving DecidableEq

/-! ## String primitives

The string functions of the Rust standard library are re-implemented
here by structural recursion over the character list of a `String`, so
that every definition evaluates inside the kernel.  `Rust str::len` is
the UTF-8 byte length; `chars().nth(i)` indexes code points. -/

/-- Rust `str::starts_with`. -/
def starts_with (s pre : String) : Bool :=
  pre.data.isPrefixOf s.data

/-- Rust `str::len`: the UTF-8 byte length. -/
def utf8_len (s : String) : Nat :=
  s.data.foldl (fun n c => n + c.utf8Size) 0

/-- Rust `str::split` on a character predicate: splits at every matching
character and keeps empty pieces (`"a..b"` gives `a`, ``, `b`; `""`
gives one empty piece). -/
def split_chars (p : Char → Bool) : List Char → List (List Char)
  | [] => [[]]
  | c :: cs =>
      if p c then [] :: split_chars p cs
      else
        match split_chars p cs with
        | [] => [[c]]
        | h :: t => (c :: h) :: t

/-- `sep`-interspersed concatenation (Rust `Vec::join` / the stem check
of `Path::extension`). -/
def intercalate_chars (sep : List Char) : List (List Char) → List Char
  | [] => []
  | [x] => x
  | x :: y :: xs => x ++ sep ++ intercalate_chars sep (y :: xs)

/-! ## WSL path predicates (src/platform/wsl.rs) -/

def is_unix_style_path (path : String) : Bool :=
  starts_with path "/" && !(starts_with path "/mnt/")

def is_wsl_path (path : String) : Bool :=
  starts_with path "/mnt/" || is_unix_style_path path

/-- Second check of `is_windows_path_in_wsl`: a Windows-style path with a
drive letter (`chars[0]` ASCII-alphabetic and `chars[1]` one of
`:`, `\`, `/`).  `char::is_ascii_alphabetic` is `Char.isAlpha`. -/
def windows_drive_style (path : String) : Bool :=
  if 2 ≤ utf8_len path then
    match path.data, path.data.get? 0, path.data.get? 1 with
    | chars, some c0, some c1 =>
        decide (3 ≤ chars.length) && c0.isAlpha &&
          (c1 == ':' || c1 == '\\' || c1 == '/')
    | _, _, _ => false
  else false

def is_windows_path_in_wsl (path : String) : Bool :=
  -- first check: /mnt/<drive>/ ; when both chars exist the Rust code
  -- returns from inside the if-let, otherwise it falls through
  if starts_with path "/mnt/" && decide (7 ≤ utf8_len path) then
    match path.data.get? 5, path.data.get? 6 with
    | some drive, some slash => drive.isAlpha && slash == '/'
    | _, _ => windows_drive_style path
  else windows_drive_style path

/-- Rust `Path::file_name` for the POSIX paths this code runs on:
the last non-empty `/`-separated component. -/
def file_name_of (path : String) : List Char :=
  ((split_chars (fun c => c == '/') path.data).filter
    (fun c => !c.isEmpty)).getLastD []

/-- Rust `Path::extension`: the part of the file name after the last `.`,
absent when there is no `.` or when everything before the last `.` is
empty (hidden files such as `.bashrc`). -/
def extension_of (path : String) : Option (List Char) :=
  let parts := split_chars (fun c => c == '.') (file_name_of path)
  if 2 ≤ parts.length then
    if (intercalate_chars ['.'] parts.dropLast).isEmpty then none
    else some (parts.getLastD [])
  else none

/-- Rust `char::to_lowercase` restricted to the ASCII range touched by
the comparisons below. -/
def is_windows_executable_in_wsl (path : String) : Bool :=
  match extension_of path with
  | some ext =>
      let e := String.mk (ext.map Char.toLower)
      e == "exe" || e == "bat" || e == "cmd" || e == "ps1"
  | none => false

/-! ## Conflict categorizer (src/analyzers/categorizer.rs) -/

def is_wsl_vs_windows_conflict (instances : List ExecutableInfo) : Bool :=
  if instances.length < 2 then false
  else
    let has_wsl := instances.any (fun i =>
      is_wsl_path i.resolved_path && !(is_windows_path_in_wsl i.resolved_path))
    let has_windows := instances.any (fun i =>
      is_windows_path_in_wsl i.resolved_path ||
        is_windows_executable_in_wsl i.resolved_path)
    has_wsl && has_windows

/-- ≥ 2 distinct version-manager names among the classified instances
(the Rust code counts a `HashSet` of the names). -/
def is_multiple_version_managers_conflict
    (instances : List ExecutableInfo) : Bool :=
  let version_managers :=
    ((instances.filterMap (fun i => i.manager)).filter
      (fun m => decide (m.manager_type = ManagerType.VersionManager))).map
      (fun m => m.name)
  decide (1 < version_managers.dedup.length)

def is_version_manager_vs_system_conflict
    (instances : List ExecutableInfo) : Bool :=
  let has_version_manager := instances.any (fun i =>
    (i.manager.map
      (fun m => decide (m.manager_type = ManagerType.VersionManager))).getD false)
  let has_system := instances.any (fun i =>
    (i.manager.map
      (fun m => decide (m.manager_type = ManagerType.SystemInstall))).getD false)
  has_version_manager && has_system

def is_package_manager_vs_system_conflict
    (instances : List ExecutableInfo) : Bool :=
  let has_package_manager := instances.any (fun i =>
    (i.manager.map
      (fun m => decide (m.manager_type = ManagerType.PackageManager))).getD false)
  let has_system := instances.any (fun i =>
    (i.manager.map
      (fun m => decide (m.manager_type = ManagerType.SystemInstall))).getD false)
  has_package_manager && has_system

/-- ≥ 2 distinct raw version strings among instances with a version. -/
def has_different_versions (instances : List ExecutableInfo) : Bool :=
  let versions := (instances.filterMap (fun i => i.version)).map (fun v => v.raw)
  decide (1 < versions.dedup.length)

/-- Rust `u32::from_str`: optional leading `+`, then ASCII digits only,
value below `2^32`. -/
def parse_u32 (s : String) : Option Nat :=
  let ds := match s.data with
    | '+' :: rest => rest
    | l => l
  if ds.isEmpty || !(ds.all Char.isDigit) then none
  else
    let v := ds.foldl (fun acc c => acc * 10 + (c.toNat - 48)) 0
    if v < 4294967296 then some v else none

/-- `ConflictCategorizer::extract_major_version`: split the raw string on
`.`, `-`, ` `; keep the digit characters of the first piece; parse them
as `u32`.  (Rust filters with `char::is_numeric`; non-ASCII numerals,
which `u32::from_str` rejects anyway, are outside this model.) -/
def extract_major_version (version : String) : Option Nat :=
  let parts := split_chars (fun c => c == '.' || c == '-' || c == ' ') version.data
  match parts.head? with
  | some first => parse_u32 (String.mk (first.filter Char.isDigit))
  | none => none

/-- The parsable major versions of a group, in instance order. -/
def major_versions (instances : List ExecutableInfo) : List Nat :=
  (instances.filterMap (fun i => i.version)).filterMap
    (fun v => extract_major_version v.raw)

def has_major_version_difference (instances : List ExecutableInfo) : Bool :=
  let versions := major_versions instances
  if versions.length < 2 then false
  else decide (1 < versions.dedup.length)

def are_likely_same_binary (instances : List ExecutableInfo) : Bool :=
  if instances.length < 2 then false
  else decide ((instances.map (fun i => i.resolved_path)).dedup.length = 1)

/-- `ConflictCategorizer::categorize`: the ordered decision ladder, first
match returned. -/
def categorize (platform : PlatformInfo) (_binary_name : String)
    (instances : List ExecutableInfo) : ConflictCategory :=
  if platform.is_wsl && is_wsl_vs_windows_conflict instances then
    ConflictCategory.WslVsWindows
  else if is_multiple_version_managers_conflict instances then
    ConflictCategory.MultipleVersionManagers
  else if is_version_manager_vs_system_conflict instances then
    ConflictCategory.VersionManagerVsSystem
  else if is_package_manager_vs_system_conflict instances then
    ConflictCategory.PackageManagerVsSystem
  else if has_different_versions instances then
    ConflictCategory.DuplicateVersions
  else
    ConflictCategory.ShadowedBinary

/-- `ConflictCategorizer::assess_severity`.  The Rust method takes `&self`
but reads nothing from it: severity depends only on the category and the
instances. -/
def assess_severity (category : ConflictCategory)
    (instances : List ExecutableInfo) : Severity :=
  match category with
  | ConflictCategory.WslVsWindows => Severity.High
  | ConflictCategory.MultipleVersionManagers => Severity.Medium
  | ConflictCategory.VersionManagerVsSystem =>
      if has_major_version_difference instances then Severity.Critical
      else Severity.Medium
  | ConflictCategory.PackageManagerVsSystem => Severity.Low
  | ConflictCategory.DuplicateVersions =>
      if has_major_version_difference instances then Severity.High
      else Severity.Low
  | ConflictCategory.ShadowedBinary =>
      if are_likely_same_binary instances then Severity.Info
      else Severity.Medium
  | ConflictCategory.Other => Severity.Low

/-- `ConflictDetector::generate_recommendation`. -/
def generate_recommendation (category : ConflictCategory)
    (binary_name : String) (instances : List ExecutableInfo) : Option String :=
  match category with
  | ConflictCategory.WslVsWindows =>
      some ("You\x27re running WSL but have " ++ binary_name ++
        " in both WSL and Windows PATH. Consider using only the WSL version or removing Windows paths from WSL PATH.")
  | ConflictCategory.MultipleVersionManagers =>
      some ("Multiple version managers are managing " ++ binary_name ++
        ". Consider consolidating to a single version manager for consistency.")
  | ConflictCategory.VersionManagerVsSystem =>
      let version_manager :=
        ((((instances.find? (fun i =>
            (i.manager.map (fun m =>
              decide (m.manager_type = ManagerType.VersionManager))).getD false)).bind
          (fun i => i.manager)).map (fun m => m.name)).getD "version manager")
      some ("Consider using " ++ version_manager ++
        " consistently or removing the system installation of " ++ binary_name ++
        " to avoid confusion.")
  | ConflictCategory.DuplicateVersions =>
      some ("Multiple versions of " ++ binary_name ++
        " found. Ensure you\x27re using the intended version.")
  | _ => none

/-- `ConflictDetector::generate_description`. -/
def generate_description (binary_name : String)
    (instances : List ExecutableInfo) (active_instance : ExecutableInfo) : String :=
  let count := instances.length
  let shadowed_count := count - 1
  let active_path := active_instance.full_path
  let active_version :=
    ((active_instance.version.map (fun v => " (" ++ v.raw ++ ")")).getD "")
  if shadowed_count = 1 then
    binary_name ++ " has 1 shadowed instance. Active: " ++ active_path ++ active_version
  else
    binary_name ++ " has " ++ toString shadowed_count ++
      " shadowed instances. Active: " ++ active_path ++ active_version

/-! ## Conflict detector (src/core/conflict_detector.rs)

The Rust code groups the executables of all path entries into a
`HashMap<String, Vec<ExecutableInfo>>`; the per-name vector preserves
the traversal order over `path_entries`, so it equals a `filter` of the
flattened executable list.  `HashMap` iteration order is unspecified, so
the model enumerates the distinct names in a fixed (dedup) order; no
claim depends on the relative order of different groups. -/

def allExecutables (path_entries : List PathEntry) : List ExecutableInfo :=
  (path_entries.map (fun e => e.executables)).flatten

/-- Ascending PATH order, the key of the Rust `sort_by_key`. -/
def byPathOrder (a b : ExecutableInfo) : Prop := a.path_order ≤ b.path_order

instance : DecidableRel byPathOrder :=
  fun a b => Nat.decLe a.path_order b.path_order

instance : IsTotal ExecutableInfo byPathOrder :=
  ⟨fun a b => Nat.le_total a.path_order b.path_order⟩

instance : IsTrans ExecutableInfo byPathOrder :=
  ⟨fun _ _ _ h1 h2 => Nat.le_trans h1 h2⟩

/-- Descending severity, the order of the final `sort_by` on conflicts. -/
def bySeverityDesc (a b : Conflict) : Prop := b.severity.rank ≤ a.severity.rank

instance : DecidableRel bySeverityDesc :=
  fun a b => Nat.decLe b.severity.rank a.severity.rank

/-- One group of `ConflictDetector::detect_conflicts`: the instances
carrying `binary_name`, skipped when fewer than two, otherwise sorted
stably by `path_order` (Rust `sort_by_key` is stable, as is
`List.insertionSort`); the first sorted instance is the active one. -/
def mk_conflict (platform : PlatformInfo) (path_entries : List PathEntry)
    (binary_name : String) : Option Conflict :=
  let instances0 :=
    (allExecutables path_entries).filter (fun e => e.name == binary_name)
  if instances0.length ≤ 1 then none
  else
    match List.insertionSort byPathOrder instances0 with
    | [] => none
    | active :: rest =>
        let instances := active :: rest
        let category := categorize platform binary_name instances
        let severity := assess_severity category instances
        some { binary_name := binary_name
               instances := instances
               active_instance := active
               category := category
               severity := severity
               description := generate_description binary_name instances active
               recommendation :=
                 generate_recommendation category binary_name instances }

/-- `ConflictDetector::detect_conflicts`: one conflict per binary name with
at least two records, finally sorted by descending severity (stable). -/
def detect_conflicts (platform : PlatformInfo)
    (path_entries : List PathEntry) : List Conflict :=
  let names := ((allExecutables path_entries).map (fun e => e.name)).dedup
  List.insertionSort bySeverityDesc
    (names.filterMap (mk_conflict platform path_entries))

/-! ## Symlink resolver (src/analyzers/symlink_resolver.rs)

The filesystem is an abstract, read-only snapshot: `isSymlink` mirrors
`Path::is_symlink`, `readLink` a successful `fs::read_link` (with `none`
for a failing one), `isRelative`/`parent`/`join` the `std::path`
operations on the link target, and `canonicalize` a successful
`Path::canonicalize`.  The `HashSet` of seen paths is a list queried by
membership. -/

structure Fs where
  isSymlink : String → Bool
  readLink : String → Option String
  isRelative : String → Bool
  parent : String → Option String
  join : String → String → String
  canonicalize : String → Option String

inductive ResolveError where
  | SymlinkError (path : String)
  | CircularSymlink (path : String)
deriving DecidableEq

/-- The code after the `while` loop of `SymlinkResolver::resolve`:
canonicalize when possible, otherwise return the current path. -/
def resolve_finish (fs : Fs) (current : String) : Except ResolveError String :=
  match fs.canonicalize current with
  | some canonical => Except.ok canonical
  | none => Except.ok current

/-- The `while` loop of `SymlinkResolver::resolve`.  The Rust loop runs
while `current.is_symlink() && depth < max_depth`; here `remaining`
stands for `max_depth - depth`, so the loop exits exactly when
`remaining = 0` or the current path is no symlink. -/
def resolve_loop (fs : Fs) (remaining : Nat) (current : String)
    (seen : List String) : Except ResolveError String :=
  match remaining with
  | 0 => resolve_finish fs current
  | r + 1 =>
      if fs.isSymlink current then
        if current ∈ seen then
          Except.error (ResolveError.CircularSymlink current)
        else
          match fs.readLink current with
          | none => Except.error (ResolveError.SymlinkError current)
          | some target =>
              let next :=
                if fs.isRelative target then
                  match fs.parent current with
                  | some p => fs.join p target
                  | none => target
                else target
              resolve_loop fs r next (current :: seen)
      else resolve_finish fs current

/-- `SymlinkResolver::resolve` with hop cap `max_depth` (default 10). -/
def resolve (fs : Fs) (max_depth : Nat) (path : String) :
    Except ResolveError String :=
  resolve_loop fs max_depth path []

/-- The per-record body of `SymlinkResolver::resolve_executables`: a
failed resolution falls back to the original `full_path`. -/
def resolve_executable (fs : Fs) (max_depth : Nat)
    (e : ExecutableInfo) : ExecutableInfo :=
  if e.is_symlink then
    match resolve fs max_depth e.full_path with
    | Except.ok resolved => { e with resolved_path := resolved }
    | Except.error _ => { e with resolved_path := e.full_path }
  else
    { e with resolved_path := e.full_path }

/-- `SymlinkResolver::resolve_executables`: every error of `resolve` is
caught in the per-record `match`; the function always returns `Ok`. -/
def resolve_executables (fs : Fs) (max_depth : Nat)
    (executables : List ExecutableInfo) :
    Except ResolveError (List ExecutableInfo) :=
  Except.ok (executables.map (resolve_executable fs max_depth))

/-! ## Path-list parser (src/core/path_parser.rs)

`expand_env_vars` (environment lookup) and `normalize_path`
(current-directory join plus `canonicalize`) perform I/O, so they are
abstract functions of the environment; `parse_path` only threads them
through.  Rust `str::trim` is modelled by `String.trim`. -/

structure PathEnv where
  expand_env_vars : String → String
  normalize_path : String → String
  path_exists : String → Bool
  read_dir_ok : String → Bool

/-- Rust `str::trim` (ASCII whitespace). -/
def trim_chars (cs : List Char) : List Char :=
  ((cs.dropWhile Char.isWhitespace).reverse.dropWhile Char.isWhitespace).reverse

/-- `PathParser::check_accessibility`. -/
def check_accessibility (env : PathEnv) (path : String) : Bool :=
  if !(env.path_exists path) then false
  else env.read_dir_ok path

/-- `PathParser::parse_path`: split on the separator, enumerate to get
each segment's `order`, skip blank (trimmed-empty) segments. -/
def parse_path (env : PathEnv) (separator : Char) (path_var : String) :
    List PathEntry :=
  let paths := split_chars (fun c => c == separator) path_var.data
  paths.enum.filterMap (fun p =>
    if (trim_chars p.2).isEmpty then none
    else
      let expanded := env.expand_env_vars (String.mk (trim_chars p.2))
      let path_buf := env.normalize_path expanded
      some { path := path_buf
             order := p.1
             exists_dir := env.path_exists path_buf
             is_accessible := check_accessibility env path_buf
             executables := [] })

/-! ## Concrete sample data used by witnesses and spec examples -/

def mkExe (name full_path resolved_path : String) (path_order : Nat)
    (manager : Option ManagerInfo) (version : Option VersionInfo) :
    ExecutableInfo :=
  { name := name
    full_path := full_path
    size := 1000
    modified := 0
    is_symlink := false
    symlink_target := none
    resolved_path := resolved_path
    version := version
    manager := manager
    file_hash := none
    path_order := path_order }

def nvmInfo : ManagerInfo :=
  { manager_type := ManagerType.VersionManager
    name := "nvm"
    description := "Node Version Manager" }

def pyenvInfo : ManagerInfo :=
  { manager_type := ManagerType.VersionManager
    name := "pyenv"
    description := "Python version manager" }

def systemInfo : ManagerInfo :=
  { manager_type := ManagerType.SystemInstall
    name := "system"
    description := "System installation" }

def mkVer (raw : String) : VersionInfo :=
  { raw := raw, parsed := none, extraction_method := "cli" }

def linuxPlatform : PlatformInfo :=
  { os := "linux", arch := "x86_64", is_wsl := false
    wsl_version := none, wsl_distro := none }

def wslPlatform : PlatformInfo :=
  { os := "linux", arch := "x86_64", is_wsl := true
    wsl_version := some "WSL2", wsl_distro := some "Ubuntu" }

/-! ## Claims -/

/-- C10: `categorize` always returns one of the six pipeline categories
and never `ConflictCategory.Other`, so the `Other` severity branch is
unreachable for pipeline groups. -/
theorem categorize_never_other (platform : PlatformInfo)
    (binary_name : String) (instances : List ExecutableInfo)
    (hne : instances ≠ []) :
    categorize platform binary_name instances ≠ ConflictCategory.Other ∧
    categorize platform binary_name instances ∈
      [ConflictCategory.WslVsWindows, ConflictCategory.MultipleVersionManagers,
       ConflictCategory.VersionManagerVsSystem,
       ConflictCategory.PackageManagerVsSystem,
       ConflictCategory.DuplicateVersions, ConflictCategory.ShadowedBinary] := by
  unfold categorize
  constructor <;> (repeat' split) <;> simp

/-- Witness for C10 at a concrete one-element group. -/
theorem categorize_never_other_witness :
    categorize linuxPlatform "python"
      [mkExe "python" "/usr/bin/python" "/usr/bin/python" 0 none none] ≠
      ConflictCategory.Other :=
  (categorize_never_other linuxPlatform "python" _ (by simp)).1

/-- C4: for `VersionManagerVsSystem` the severity is `Critical` when the
major versions differ and `Medium` otherwise; on versions `"3.9.0"` and
`"3.11.0"` it is `Medium`, on `"2.7.0"` and `"3.11.0"` it is `Critical`.
(The Rust `assess_severity` reads nothing from `self`, so the embedded
function takes only the category and the instances: severity is a pure
function of those two arguments by its very type.) -/
theorem vm_vs_system_severity (instances : List ExecutableInfo) :
    (has_major_version_difference instances = true →
      assess_severity ConflictCategory.VersionManagerVsSystem instances =
        Severity.Critical) ∧
    (has_major_version_difference instances = false →
      assess_severity ConflictCategory.VersionManagerVsSystem instances =
        Severity.Medium) ∧
    assess_severity ConflictCategory.VersionManagerVsSystem
      [mkExe "python" "/usr/bin/python" "/usr/bin/python" 0
        (some systemInfo) (some (mkVer "3.9.0")),
       mkExe "python" "/home/u/.pyenv/shims/python"
        "/home/u/.pyenv/shims/python" 1 (some pyenvInfo)
        (some (mkVer "3.11.0"))] = Severity.Medium ∧
    assess_severity ConflictCategory.VersionManagerVsSystem
      [mkExe "python" "/usr/bin/python" "/usr/bin/python" 0
        (some systemInfo) (some (mkVer "2.7.0")),
       mkExe "python" "/home/u/.pyenv/shims/python"
        "/home/u/.pyenv/shims/python" 1 (some pyenvInfo)
        (some (mkVer "3.11.0"))] = Severity.Critical := by
  refine ⟨?_, ?_, ?_, ?_⟩
  · intro h; simp [assess_severity, h]
  · intro h; simp [assess_severity, h]
  · decide
  · decide

/-- Witness for C4: the `Critical` branch taken at a concrete group with
majors 2 and 3. -/
theorem vm_vs_system_severity_witness :
    assess_severity ConflictCategory.VersionManagerVsSystem
      [mkExe "python" "/usr/bin/python" "/usr/bin/python" 0
        (some systemInfo) (some (mkVer "2.7.0")),
       mkExe "python" "/home/u/.pyenv/shims/python"
        "/home/u/.pyenv/shims/python" 1 (some pyenvInfo)
        (some (mkVer "3.11.0"))] = Severity.Critical :=
  (vm_vs_system_severity _).1 (by decide)

def asdfInfo : ManagerInfo :=
  { manager_type := ManagerType.VersionManager
    name := "asdf"
    description := "asdf version manager" }

/-- A group managed by two distinct version managers with a system copy. -/
def mvmInstances : List ExecutableInfo :=
  [mkExe "node" "/usr/bin/node" "/usr/bin/node" 0 (some systemInfo) none,
   mkExe "node" "/home/u/.nvm/versions/node/v18/bin/node"
     "/home/u/.nvm/versions/node/v18/bin/node" 1 (some nvmInfo) none,
   mkExe "node" "/home/u/.asdf/shims/node" "/home/u/.asdf/shims/node" 2
     (some asdfInfo) none]

/-- C1: `categorize` is the strict ordered ladder
WslVsWindows, MultipleVersionManagers, VersionManagerVsSystem,
PackageManagerVsSystem, DuplicateVersions, ShadowedBinary, returning on
the first matching predicate; in particular a group satisfying both the
MultipleVersionManagers and the VersionManagerVsSystem predicates (and
not the earlier WSL rung) is categorized MultipleVersionManagers. -/
theorem categorize_ladder (platform : PlatformInfo) (binary_name : String)
    (instances : List ExecutableInfo) :
    ((platform.is_wsl && is_wsl_vs_windows_conflict instances) = true →
      categorize platform binary_name instances = ConflictCategory.WslVsWindows) ∧
    ((platform.is_wsl && is_wsl_vs_windows_conflict instances) = false →
      is_multiple_version_managers_conflict instances = true →
      categorize platform binary_name instances =
        ConflictCategory.MultipleVersionManagers) ∧
    ((platform.is_wsl && is_wsl_vs_windows_conflict instances) = false →
      is_multiple_version_managers_conflict instances = false →
      is_version_manager_vs_system_conflict instances = true →
      categorize platform binary_name instances =
        ConflictCategory.VersionManagerVsSystem) ∧
    ((platform.is_wsl && is_wsl_vs_windows_conflict instances) = false →
      is_multiple_version_managers_conflict instances = false →
      is_version_manager_vs_system_conflict instances = false →
      is_package_manager_vs_system_conflict instances = true →
      categorize platform binary_name instances =
        ConflictCategory.PackageManagerVsSystem) ∧
    ((platform.is_wsl && is_wsl_vs_windows_conflict instances) = false →
      is_multiple_version_managers_conflict instances = false →
      is_version_manager_vs_system_conflict instances = false →
      is_package_manager_vs_system_conflict instances = false →
      has_different_versions instances = true →
      categorize platform binary_name instances =
        ConflictCategory.DuplicateVersions) ∧
    ((platform.is_wsl && is_wsl_vs_windows_conflict instances) = false →
      is_multiple_version_managers_conflict instances = false →
      is_version_manager_vs_system_conflict instances = false →
      is_package_manager_vs_system_conflict instances = false →
      has_different_versions instances = false →
      categorize platform binary_name instances =
        ConflictCategory.ShadowedBinary) ∧
    (is_multiple_version_managers_conflict instances = true →
      is_version_manager_vs_system_conflict instances = true →
      (platform.is_wsl && is_wsl_vs_windows_conflict instances) = false →
      categorize platform binary_name instances =
        ConflictCategory.MultipleVersionManagers) := by
  refine ⟨?_, ?_, ?_, ?_, ?_, ?_, ?_⟩ <;> intros <;> simp_all [categorize]

/-- Witness for C1: a non-WSL group satisfying both the
MultipleVersionManagers and VersionManagerVsSystem predicates is
categorized MultipleVersionManagers. -/
theorem categorize_ladder_witness :
    categorize linuxPlatform "node" mvmInstances =
      ConflictCategory.MultipleVersionManagers :=
  (categorize_ladder linuxPlatform "node" mvmInstances).2.2.2.2.2.2
    (by decide) (by decide) (by decide)

/-- `is_wsl_vs_windows_conflict` on a group of at least two instances is
the conjunction of its two `any` scans. -/
theorem wsl_conflict_true_iff (instances : List ExecutableInfo)
    (h2 : 2 ≤ instances.length) :
    is_wsl_vs_windows_conflict instances = true ↔
      ((instances.any fun i =>
          is_wsl_path i.resolved_path &&
            !(is_windows_path_in_wsl i.resolved_path)) = true ∧
       (instances.any fun i =>
          is_windows_path_in_wsl i.resolved_path ||
            is_windows_executable_in_wsl i.resolved_path) = true) := by
  unfold is_wsl_vs_windows_conflict
  rw [if_neg (by omega)]
  simp [Bool.and_eq_true]

/-- The spec's WSL scenario: a Windows-mounted `node.exe` next to a
WSL-native nvm-managed `node`. -/
def wslInstances : List ExecutableInfo :=
  [mkExe "node" "/mnt/c/Windows/system32/node.exe"
     "/mnt/c/Windows/system32/node.exe" 0 none none,
   mkExe "node" "/home/user/.nvm/versions/node/v18/bin/node"
     "/home/user/.nvm/versions/node/v18/bin/node" 1 (some nvmInfo) none]

/-- C3: under WSL platform facts a group (≥ 2 instances) is categorized
WslVsWindows exactly when it has a WSL-native instance and a
Windows-mounted or Windows-extension instance; this rung precedes every
other category, its severity is High, and without WSL platform facts the
category is never assigned. -/
theorem wsl_vs_windows_iff (platform : PlatformInfo) (binary_name : String)
    (instances : List ExecutableInfo) (h2 : 2 ≤ instances.length) :
    (platform.is_wsl = true →
      (categorize platform binary_name instances = ConflictCategory.WslVsWindows ↔
        ((instances.any fun i =>
            is_wsl_path i.resolved_path &&
              !(is_windows_path_in_wsl i.resolved_path)) = true ∧
         (instances.any fun i =>
            is_windows_path_in_wsl i.resolved_path ||
              is_windows_executable_in_wsl i.resolved_path) = true))) ∧
    (platform.is_wsl = false →
      categorize platform binary_name instances ≠ ConflictCategory.WslVsWindows) ∧
    assess_severity ConflictCategory.WslVsWindows instances = Severity.High := by
  refine ⟨?_, ?_, rfl⟩
  · intro hw
    rw [← wsl_conflict_true_iff instances h2]
    constructor
    · intro hc
      cases hcc : is_wsl_vs_windows_conflict instances with
      | true => rfl
      | false =>
          exfalso
          revert hc
          simp only [categorize, hw, hcc]
          (repeat' split) <;> simp_all
    · intro hcc
      simp [categorize, hw, hcc]
  · intro hw
    simp only [categorize, hw]
    (repeat' split) <;> simp_all

/-- Witness for C3: the spec's WSL scenario is categorized WslVsWindows. -/
theorem wsl_vs_windows_iff_witness :
    categorize wslPlatform "node" wslInstances = ConflictCategory.WslVsWindows :=
  ((wsl_vs_windows_iff wslPlatform "node" wslInstances (by decide)).1
    (by rfl)).mpr ⟨by decide, by decide⟩

/-- Modelled from the spec's words for C5: the major version is "the
leading numeric run of the raw version string parsed as an unsigned
integer (a string not beginning with a digit has no major version)". -/
def spec_leading_major (s : String) : Option Nat :=
  let run := s.data.takeWhile Char.isDigit
  if run.isEmpty then none else parse_u32 (String.mk run)

/-- Counterexample for C5: on `"v18.0.0"` the code extracts major 18 (the
repository's own unit test asserts this), while the claim's leading-run
rule yields no major version because the string does not begin with a
digit. -/
theorem extract_major_version_counterexample :
    extract_major_version "v18.0.0" = some 18 ∧
    spec_leading_major "v18.0.0" = none := by
  constructor <;> decide

/-- The amended rule for C5, stated in the amended claim's words: all
digit characters of the first piece of the raw string split on
`.`, `-`, ` `, parsed as `u32`; absent when that piece has no digits. -/
def amended_major (s : String) : Option Nat :=
  let first := (split_chars (fun c => c == '.' || c == '-' || c == ' ') s.data).headD []
  let digits := first.filter Char.isDigit
  if digits.isEmpty then none else parse_u32 (String.mk digits)

/-- C5 (amended): `extract_major_version` agrees with the amended rule on
every string; entries without a parsable major are excluded from the
comparison, and fewer than two parsable majors report no difference;
sample values `"3.9.0"` (major 3), `"v18.0.0"` (major 18) and `"beta"`
(no major). -/
theorem extract_major_version_amended (s : String)
    (instances : List ExecutableInfo) :
    extract_major_version s = amended_major s ∧
    (has_major_version_difference instances = true →
      1 < (major_versions instances).dedup.length) ∧
    ((major_versions instances).length < 2 →
      has_major_version_difference instances = false) ∧
    (extract_major_version "3.9.0" = some 3 ∧
     extract_major_version "v18.0.0" = some 18 ∧
     extract_major_version "beta" = none) := by
  refine ⟨?_, ?_, ?_, by decide, by decide, by decide⟩
  · unfold extract_major_version amended_major
    cases hsp : split_chars (fun c => c == '.' || c == '-' || c == ' ') s.data with
    | nil => simp
    | cons first rest =>
        simp only [List.head?, List.headD]
        cases hde : (first.filter Char.isDigit).isEmpty with
        | true =>
            have hnil : first.filter Char.isDigit = [] := by
              simpa using hde
            simp [hde, hnil, parse_u32]
        | false => simp [hde]
  · intro h
    unfold has_major_version_difference at h
    by_cases hlt : (major_versions instances).length < 2
    · simp [hlt] at h
    · simpa [hlt] using h
  · intro h
    unfold has_major_version_difference
    simp [h]

/-- Witness for C5 (amended): a single unparsable version entry gives no
major-version difference. -/
theorem extract_major_version_amended_witness :
    has_major_version_difference
      [mkExe "python" "/usr/bin/python" "/usr/bin/python" 0 none
        (some (mkVer "beta"))] = false :=
  (extract_major_version_amended "x" _).2.2.1 (by decide)

/-- One hop of the resolve loop: a symlink not yet seen, with a readable
absolute target, steps to that target with the current path recorded. -/
theorem resolve_loop_step (fs : Fs) (r : Nat) (cur nxt : String)
    (seen : List String) (hs : fs.isSymlink cur = true) (hm : cur ∉ seen)
    (hr : fs.readLink cur = some nxt) (hrel : fs.isRelative nxt = false) :
    resolve_loop fs (r + 1) cur seen = resolve_loop fs r nxt (cur :: seen) := by
  simp [resolve_loop, hs, hm, hr, hrel]

/-- Revisiting a seen symlink while hops remain reports CircularSymlink. -/
theorem resolve_loop_cycle (fs : Fs) (r : Nat) (cur : String)
    (seen : List String) (hs : fs.isSymlink cur = true) (hm : cur ∈ seen) :
    resolve_loop fs (r + 1) cur seen =
      Except.error (ResolveError.CircularSymlink cur) := by
  simp [resolve_loop, hs, hm]

/-- C7: a circular chain a → b → a (absolute targets) is reported as a
CircularSymlink error whenever the hop cap is at least 3, in particular
at the default cap 10; the loop itself is structurally bounded by the
remaining hop budget, so resolution always terminates. -/
theorem circular_symlink_detected (fs : Fs) (a b : String) (max_depth : Nat)
    (hab : a ≠ b)
    (hsa : fs.isSymlink a = true) (hsb : fs.isSymlink b = true)
    (hra : fs.readLink a = some b) (hrb : fs.readLink b = some a)
    (hrela : fs.isRelative a = false) (hrelb : fs.isRelative b = false)
    (hd : 3 ≤ max_depth) :
    resolve fs max_depth a =
      Except.error (ResolveError.CircularSymlink a) := by
  obtain ⟨k, rfl⟩ : ∃ k, max_depth = k + 3 := ⟨max_depth - 3, by omega⟩
  calc resolve fs (k + 3) a
      = resolve_loop fs (k + 2 + 1) a [] := rfl
    _ = resolve_loop fs (k + 1 + 1) b [a] :=
        resolve_loop_step fs (k + 2) a b [] hsa (by simp) hra hrelb
    _ = resolve_loop fs (k + 1) a [b, a] :=
        resolve_loop_step fs (k + 1) b a [a] hsb
          (by simp [Ne.symm hab]) hrb hrela
    _ = Except.error (ResolveError.CircularSymlink a) := by
        cases k with
        | zero => exact resolve_loop_cycle fs 0 a [b, a] hsa (by simp)
        | succ m => exact resolve_loop_cycle fs (m + 1) a [b, a] hsa (by simp)

/-- A two-element symlink cycle a → b → a on an abstract snapshot. -/
def fsCirc : Fs :=
  { isSymlink := fun p => p == "/usr/bin/a" || p == "/usr/bin/b"
    readLink := fun p =>
      if p == "/usr/bin/a" then some "/usr/bin/b"
      else if p == "/usr/bin/b" then some "/usr/bin/a"
      else none
    isRelative := fun _ => false
    parent := fun _ => none
    join := fun p t => p ++ "/" ++ t
    canonicalize := fun _ => none }

/-- Witness for C7 at the default hop cap 10. -/
theorem circular_symlink_detected_witness :
    resolve fsCirc 10 "/usr/bin/a" =
      Except.error (ResolveError.CircularSymlink "/usr/bin/a") :=
  circular_symlink_detected fsCirc "/usr/bin/a" "/usr/bin/b" 10
    (by decide) (by decide) (by decide) (by decide) (by decide)
    (by decide) (by decide) (by omega)

/-- C6: whenever `resolve` fails on a record's path, the record keeps its
original `full_path` as `resolved_path`, and `resolve_executables` still
returns `Ok` of the per-record results — no resolution failure escapes. -/
theorem resolve_failure_falls_back (fs : Fs) (max_depth : Nat)
    (executables : List ExecutableInfo) (e : ExecutableInfo)
    (err : ResolveError)
    (h : resolve fs max_depth e.full_path = Except.error err) :
    (resolve_executable fs max_depth e).resolved_path = e.full_path ∧
    resolve_executables fs max_depth executables =
      Except.ok (executables.map (resolve_executable fs max_depth)) := by
  refine ⟨?_, rfl⟩
  unfold resolve_executable
  cases hsym : e.is_symlink <;> simp [hsym, h]

/-- A symlink record over a broken link (its target cannot be read). -/
def brokenExe : ExecutableInfo :=
  { mkExe "a" "/usr/bin/a" "" 0 none none with is_symlink := true }

/-- A snapshot in which `/usr/bin/a` is a symlink whose target read
fails. -/
def fsBroken : Fs :=
  { isSymlink := fun p => p == "/usr/bin/a"
    readLink := fun _ => none
    isRelative := fun _ => false
    parent := fun _ => none
    join := fun p t => p ++ "/" ++ t
    canonicalize := fun _ => none }

/-- Witness for C6: the broken-link record falls back to its full path. -/
theorem resolve_failure_falls_back_witness :
    (resolve_executable fsBroken 10 brokenExe).resolved_path =
      brokenExe.full_path :=
  (resolve_failure_falls_back fsBroken 10 [] brokenExe
    (ResolveError.SymlinkError "/usr/bin/a") (by rfl)).1

/-- C9: resolving an already-canonical non-symlink path returns exactly
that path, for every hop cap. -/
theorem resolve_canonical_idempotent (fs : Fs) (max_depth : Nat)
    (path : String) (hns : fs.isSymlink path = false)
    (hc : fs.canonicalize path = some path) :
    resolve fs max_depth path = Except.ok path := by
  cases max_depth with
  | zero => simp [resolve, resolve_loop, resolve_finish, hc]
  | succ n => simp [resolve, resolve_loop, resolve_finish, hns, hc]

/-- A snapshot with no symlinks in which every path is its own canonical
form. -/
def fsId : Fs :=
  { isSymlink := fun _ => false
    readLink := fun _ => none
    isRelative := fun _ => false
    parent := fun _ => none
    join := fun p t => p ++ "/" ++ t
    canonicalize := fun p => some p }

/-- Witness for C9 at a concrete canonical path. -/
theorem resolve_canonical_idempotent_witness :
    resolve fsId 10 "/usr/bin/python" = Except.ok "/usr/bin/python" :=
  resolve_canonical_idempotent fsId 10 "/usr/bin/python" rfl rfl

/-- C8: the parser emits one entry per non-blank segment, in input order,
with each entry's `order` equal to the index of its segment in the
separator split (blank segments are skipped but still consume indices);
on POSIX, `"/usr/bin::/bin"` yields exactly two entries with orders 0
and 2. -/
theorem parse_path_blank_segments (env : PathEnv) (separator : Char)
    (path_var : String) :
    ((parse_path env separator path_var).map (fun e => e.order) =
      ((split_chars (fun c => c == separator) path_var.data).enum.filter
        (fun p => !(trim_chars p.2).isEmpty)).map Prod.fst) ∧
    (parse_path env ':' "/usr/bin::/bin").map (fun e => e.order) = [0, 2] ∧
    (parse_path env ':' "/usr/bin::/bin").length = 2 := by
  have haux : ∀ (l : List (Nat × List Char)),
      (l.filterMap (fun p =>
          if (trim_chars p.2).isEmpty then none
          else
            let expanded := env.expand_env_vars (String.mk (trim_chars p.2))
            let path_buf := env.normalize_path expanded
            some { path := path_buf
                   order := p.1
                   exists_dir := env.path_exists path_buf
                   is_accessible := check_accessibility env path_buf
                   executables := ([] : List ExecutableInfo) })).map
        (fun e : PathEntry => e.order)
        = (l.filter (fun p => !(trim_chars p.2).isEmpty)).map Prod.fst := by
    intro l
    induction l with
    | nil => rfl
    | cons hd tl ih =>
        by_cases hde : trim_chars hd.2 = [] <;>
          (simp [List.filterMap_cons, List.filter_cons, hde]; simpa using ih)
  have hgen : ∀ (sep : Char) (pv : String),
      (parse_path env sep pv).map (fun e => e.order) =
        ((split_chars (fun c => c == sep) pv.data).enum.filter
          (fun p => !(trim_chars p.2).isEmpty)).map Prod.fst := by
    intro sep pv
    exact haux ((split_chars (fun c => c == sep) pv.data).enum)
  have hmap : (parse_path env ':' "/usr/bin::/bin").map (fun e => e.order) =
      [0, 2] := by
    rw [hgen]
    decide
  refine ⟨hgen separator path_var, hmap, ?_⟩
  calc (parse_path env ':' "/usr/bin::/bin").length
      = ((parse_path env ':' "/usr/bin::/bin").map (fun e => e.order)).length :=
        (List.length_map _ _).symm
    _ = ([0, 2] : List Nat).length := by rw [hmap]
    _ = 2 := rfl

/-- Anatomy of a produced group: its name is the grouping key, its
instances are sorted by PATH order, and the active instance is the head,
of minimal `path_order`. -/
theorem mk_conflict_some_spec (platform : PlatformInfo)
    (path_entries : List PathEntry) (n : String) (c : Conflict)
    (h : mk_conflict platform path_entries n = some c) :
    c.binary_name = n ∧
    c.instances.Pairwise byPathOrder ∧
    (∃ rest, c.instances = c.active_instance :: rest) ∧
    (∀ i ∈ c.instances, c.active_instance.path_order ≤ i.path_order) := by
  simp only [mk_conflict] at h
  split at h
  · exact Option.noConfusion h
  · split at h
    · exact Option.noConfusion h
    · next active rest hsort =>
        injection h with h
        subst h
        have hs := List.sorted_insertionSort byPathOrder
          ((allExecutables path_entries).filter (fun e => e.name == n))
        rw [hsort] at hs
        refine ⟨rfl, hs, ⟨rest, rfl⟩, ?_⟩
        intro i hi
        rcases List.mem_cons.mp hi with rfl | hi'
        · exact Nat.le_refl _
        · exact (List.pairwise_cons.mp hs).1 i hi'

/-- A name yields a group exactly when it is carried by at least two
records. -/
theorem mk_conflict_isSome_iff (platform : PlatformInfo)
    (path_entries : List PathEntry) (n : String) :
    (mk_conflict platform path_entries n).isSome = true ↔
      2 ≤ ((allExecutables path_entries).filter
        (fun e => e.name == n)).length := by
  simp only [mk_conflict]
  split
  · next hle => simp; omega
  · next hle =>
      split
      · next hnil =>
          exfalso
          have hl := List.length_insertionSort byPathOrder
            ((allExecutables path_entries).filter (fun e => e.name == n))
          rw [hnil] at hl
          simp at hl
          omega
      · next active rest hsort => simp; omega

/-- Scanning the nodup name list, exactly the one matching name that
forms a group contributes a conflict carrying that name. -/
theorem filter_name_filterMap (platform : PlatformInfo)
    (path_entries : List PathEntry) (n : String) :
    ∀ (ns : List String), ns.Nodup →
    ((ns.filterMap (mk_conflict platform path_entries)).filter
      (fun c => c.binary_name == n)).length =
      if n ∈ ns ∧ (mk_conflict platform path_entries n).isSome then 1 else 0 := by
  intro ns hnd
  induction ns with
  | nil => simp
  | cons m ms ih =>
      have hm := (List.nodup_cons.mp hnd).1
      have hih := ih (List.nodup_cons.mp hnd).2
      rw [List.filterMap_cons]
      cases hfm : mk_conflict platform path_entries m with
      | none =>
          rw [hih]
          by_cases hnm : n = m
          · subst hnm
            simp [hfm, hm]
          · simp [List.mem_cons, hnm]
      | some c =>
          have hcn := (mk_conflict_some_spec platform path_entries m c hfm).1
          by_cases hnm : n = m
          · subst hnm
            have hq : (c.binary_name == n) = true := by simp [hcn]
            have htail : (List.filter (fun x => x.binary_name == n)
                (List.filterMap (mk_conflict platform path_entries) ms)).length
                  = 0 := by
              rw [hih]
              simp [hm]
            rw [List.filter_cons, if_pos hq, List.length_cons, htail]
            simp [hfm]
          · have hq : ¬((c.binary_name == n) = true) := by
              simp [hcn]
              exact fun hx => hnm hx.symm
            rw [List.filter_cons, if_neg hq, hih]
            simp [List.mem_cons, hnm]

/-- The spec's grouping example: `python` in `/usr/bin` (order 0) and in
`/usr/local/bin` (order 1). -/
def pythonEntries : List PathEntry :=
  [{ path := "/usr/bin", order := 0, exists_dir := true,
     is_accessible := true,
     executables :=
       [mkExe "python" "/usr/bin/python" "/usr/bin/python" 0 none none] },
   { path := "/usr/local/bin", order := 1, exists_dir := true,
     is_accessible := true,
     executables :=
       [mkExe "python" "/usr/local/bin/python" "/usr/local/bin/python" 1
         none none] }]

/-- C2: conflict detection yields exactly one group per binary name with
at least two records; every group's instances are sorted ascending by
`path_order` with the active instance first and of minimal order; on the
spec's python example the active instance is the `/usr/bin` record. -/
theorem detect_conflicts_grouping (platform : PlatformInfo)
    (path_entries : List PathEntry) (n : String) :
    (((detect_conflicts platform path_entries).filter
        (fun c => c.binary_name == n)).length =
      if 2 ≤ ((allExecutables path_entries).filter
          (fun e => e.name == n)).length then 1 else 0) ∧
    (∀ c ∈ detect_conflicts platform path_entries,
      c.instances.Pairwise byPathOrder ∧
      (∃ rest, c.instances = c.active_instance :: rest) ∧
      (∀ i ∈ c.instances, c.active_instance.path_order ≤ i.path_order)) ∧
    (detect_conflicts linuxPlatform pythonEntries).map
      (fun c => c.active_instance.full_path) = ["/usr/bin/python"] := by
  refine ⟨?_, ?_, by decide⟩
  · unfold detect_conflicts
    have h1 : ∀ (l : List Conflict),
        ((List.insertionSort bySeverityDesc l).filter
          (fun c => c.binary_name == n)).length =
          (l.filter (fun c => c.binary_name == n)).length := by
      intro l
      rw [← List.countP_eq_length_filter, ← List.countP_eq_length_filter]
      exact (List.perm_insertionSort bySeverityDesc l).countP_eq _
    rw [h1, filter_name_filterMap platform path_entries n _
      (List.nodup_dedup _)]
    by_cases h2 : 2 ≤ ((allExecutables path_entries).filter
        (fun e => e.name == n)).length
    · have hmem : n ∈ ((allExecutables path_entries).map
          (fun e => e.name)).dedup := by
        have hne : ((allExecutables path_entries).filter
            (fun e => e.name == n)) ≠ [] := by
          intro hx
          rw [hx] at h2
          simp at h2
        obtain ⟨e, he⟩ := List.exists_mem_of_ne_nil _ hne
        have hef := List.mem_filter.mp he
        rw [List.mem_dedup, List.mem_map]
        exact ⟨e, hef.1, by simpa using hef.2⟩
      simp [h2, hmem, (mk_conflict_isSome_iff platform path_entries n).mpr h2]
    · have hns : (mk_conflict platform path_entries n).isSome ≠ true := by
        intro hx
        exact h2 ((mk_conflict_isSome_iff platform path_entries n).mp hx)
      simp [h2, hns]
  · intro c hc
    unfold detect_conflicts at hc
    rw [(List.perm_insertionSort bySeverityDesc _).mem_iff] at hc
    obtain ⟨n', _, hsome⟩ := List.mem_filterMap.mp hc
    have hspec := mk_conflict_some_spec platform path_entries n' c hsome
    exact ⟨hspec.2.1, hspec.2.2.1, hspec.2.2.2⟩

/-- Witness for C2: the spec's python example has its `/usr/bin` record
active. -/
theorem detect_conflicts_grouping_witness :
    ((detect_conflicts linuxPlatform pythonEntries).filter
      (fun c => c.binary_name == "python")).length = 1 := by
  have h := (detect_conflicts_grouping linuxPlatform pythonEntries "python").1
  rw [h]
  decide
